import Mathlib

/-!
Shallow embedding of the suite-execution orchestration engine of `saucectl`
(the `ImgRunner` in the `saucecloud` package): worker loop, per-attempt job
lifecycle, result aggregation and artifact collection, together with proofs
of the specified properties.

External effects (the Job Client, the filesystem, artifact storage) are
modelled as explicit oracles describing the outcome of each call, and every
operation additionally returns the trace of Job Client calls it performed.
-/

namespace Imagerunner

/-- Go errors relevant to the engine: the two context sentinels matched with
`errors.Is`, the two error values defined in the engine itself
(`SuiteTimeoutError`, `ErrSuiteCancelled`), and arbitrary other errors
carrying a message (`fmt.Errorf` and collaborator errors). -/
inductive GoError where
  | deadlineExceeded
  | canceled
  | suiteTimeout (timeout : Int)
  | suiteCancelled
  | msg (s : String)
deriving Repr, DecidableEq

/-- `errors.Is(err, context.DeadlineExceeded)` on an optional error. -/
def isDeadlineExceeded : Option GoError → Bool
  | some .deadlineExceeded => true
  | _ => false

/-- `errors.Is(err, context.Canceled)` on an optional error. -/
def isCanceled : Option GoError → Bool
  | some .canceled => true
  | _ => false

/-- Modelled from the spec: the status constants of the `imagerunner`
package (not under `src/`). The spec's Job status enum is
Pending/Running/Succeeded/Failed/Cancelled/TimedOut; statuses are strings
in the engine. -/
def StateCancelled : String := "Cancelled"

/-- Modelled from the spec: terminal success status of the `imagerunner`
package (not under `src/`). -/
def StateSucceeded : String := "Succeeded"

/-- Modelled from the spec: terminal failure status of the `imagerunner`
package (not under `src/`). -/
def StateFailed : String := "Failed"

/-- Modelled from the spec: the TimedOut status named by the spec's Job
status enum (the `imagerunner` package is not under `src/`). -/
def StateTimedOut : String := "TimedOut"

/-- Modelled from the spec: `imagerunner.Done` — the polled status is
terminal when it is one the backend decided (Succeeded/Failed); the
`imagerunner` package is not under `src/`. -/
def Done (status : String) : Bool :=
  status == StateSucceeded || status == StateFailed

/-- Image pull authentication (`imagerunner.Auth`). -/
structure Auth where
  user : String
  token : String
deriving Repr, DecidableEq

/-- An input file reference (`imagerunner.File`): source path and in-container
destination path. -/
structure File where
  src : String
  dst : String
deriving Repr, DecidableEq

/-- A file payload submitted to the backend (`imagerunner.FileData`). -/
structure FileData where
  path : String
  data : String
deriving Repr, DecidableEq

/-- A suite descriptor (`imagerunner.Suite`). `timeout` is a Go
`time.Duration` (nanoseconds, `Int`); `env` is a Go map, `none` models a nil
map; wall-clock-only fields are elided. -/
structure Suite where
  name : String
  image : String
  imagePullAuth : Auth
  entryPoint : String
  timeout : Int
  files : List File
  artifacts : List String
  env : Option (List (String × String))
deriving Repr, DecidableEq

/-- The project-level defaults record. -/
structure Defaults where
  name : String
  image : String
  imagePullAuth : Auth
  entryPoint : String
  timeout : Int
  files : List File
  artifacts : List String
  env : List (String × String)
deriving Repr, DecidableEq

/-- The zero value of a Go type, as tested by `reflect.ValueOf(a).IsZero()`
in `orDefault`. -/
class GoZero (T : Type) where
  zero : T

instance : GoZero String := ⟨""⟩
instance : GoZero Int := ⟨0⟩
instance : GoZero Auth := ⟨⟨"", ""⟩⟩

/-- `orDefault` takes two values of type T and returns `a` if it is non-zero
(not 0, "" etc.), `b` otherwise. -/
def orDefault {T : Type} [GoZero T] [DecidableEq T] (a b : T) : T :=
  if a = GoZero.zero then b else a

/-- Go map assignment `m[k] = v` on an association-list model of a map:
replaces the value at an existing key, appends otherwise. -/
def envInsert (k v : String) : List (String × String) → List (String × String)
  | [] => [(k, v)]
  | (k', v') :: rest => if k' = k then (k, v) :: rest else (k', v') :: envInsert k v rest

/-- Go map lookup `m[k]` on the association-list model. -/
def envGet (k : String) : List (String × String) → Option String
  | [] => none
  | (k', v) :: rest => if k' = k then some v else envGet k rest

/-- Default-merging applied by the worker to every dequeued suite
(`runSuites`, lines applying `r.Project.Defaults`): the default name is
prefixed, image / pull auth / entry point / timeout are filled only when
unset, default files and artifacts are appended, a nil env map is allocated,
and every default env entry is written into the suite env map. -/
def applyDefaults (defaults : Defaults) (s : Suite) : Suite :=
  let s := if defaults.name ≠ "" then { s with name := defaults.name ++ " " ++ s.name } else s
  let s := { s with
    image := orDefault s.image defaults.image
    imagePullAuth := orDefault s.imagePullAuth defaults.imagePullAuth
    entryPoint := orDefault s.entryPoint defaults.entryPoint
    timeout := orDefault s.timeout defaults.timeout
    files := s.files ++ defaults.files
    artifacts := s.artifacts ++ defaults.artifacts }
  let env0 := s.env.getD []
  { s with env := some (defaults.env.foldl (fun acc kv => envInsert kv.1 kv.2 acc) env0) }

/-- A remote run handle (`imagerunner.Runner`): identifier, current status,
optional termination reason (fields the engine reads; the `imagerunner`
package is not under `src/`). -/
structure Runner where
  id : String
  status : String
  terminationReason : String
deriving Repr, DecidableEq

/-- The zero `imagerunner.Runner{}` value. -/
def Runner.zero : Runner := ⟨"", "", ""⟩

/-- Which context a Job Client call was issued with: the per-attempt context
derived from the shared root (`context.WithTimeout(r.ctx, ...)`), or a fresh
`context.Background()`. -/
inductive CtxKind where
  | attempt
  | background
deriving Repr, DecidableEq

/-- One Job Client call, as recorded in an execution trace. -/
inductive JobCall where
  | triggerRun (ctx : CtxKind)
  | getStatus (ctx : CtxKind) (id : String)
  | stopRun (ctx : CtxKind) (id : String)
deriving Repr, DecidableEq

/-- The outcome of one Job Client call as observed by the caller: the
returned value, the returned error, and the value of `ctx.Err()` at the
moment the caller checks it right after the call. -/
structure CallResult where
  runner : Runner
  err : Option GoError
  ctxErr : Option GoError
deriving Repr, DecidableEq

/-- One step of the `PollRun` select loop: either the per-attempt context's
done channel fires (carrying `ctx.Err()`), or the 15-second ticker fires and
`GetStatus` returns the recorded outcome. -/
inductive PollEvent where
  | ctxDone (e : GoError)
  | tick (t : CallResult)
deriving Repr, DecidableEq

/-- `PollRun`: polls `GetStatus` at a fixed interval until the context is
done, a call errs, or the reported status is terminal. Driven by a finite
event script; `none` models a script too short to make the loop return.
Returns the runner, the returned error, `ctx.Err()` as observed by the
caller afterwards, and the trace of `GetStatus` calls. -/
def PollRun (id : String) (lastStatus : String) :
    List PollEvent → Option (Runner × Option GoError × Option GoError × List JobCall)
  | [] => none
  | .ctxDone e :: _ => some (Runner.zero, some e, some e, [])
  | .tick t :: rest =>
    if t.err.isSome then
      some (t.runner, t.err, t.ctxErr, [.getStatus .attempt id])
    else if Done t.runner.status then
      some (t.runner, none, t.ctxErr, [.getStatus .attempt id])
    else
      (PollRun id t.runner.status rest).map
        (fun r => (r.1, r.2.1, r.2.2.1, .getStatus .attempt id :: r.2.2.2))

/-- `readFile`: reads a source file and base64-encodes it. The filesystem
and the encoding are one oracle mapping a path to the encoded contents or
an error. -/
def readFile (fs : String → Except GoError String) (path : String) : Except GoError String :=
  fs path

/-- `mapFiles`: reads every declared input file, stopping at the first
error. -/
def mapFiles (fs : String → Except GoError String) :
    List File → Except GoError (List FileData)
  | [] => .ok []
  | f :: rest => do
    let data ← readFile fs f.src
    let items ← mapFiles fs rest
    .ok ({ path := f.dst, data := data } :: items)

/-- The default timeout applied when a suite declares none:
`24 * time.Hour` in nanoseconds. -/
def hours24 : Int := 86400000000000

/-- The environment of one submission attempt: the filesystem oracle, the
outcome of `TriggerRun`, the script driving `PollRun`, and the error
`StopRun` would return (the engine ignores it). -/
structure AttemptBehavior where
  fs : String → Except GoError String
  trigger : CallResult
  pollEvents : List PollEvent
  stopErr : Option GoError

/-- A single quote character, for building the Go error-message strings. -/
def sq : String := String.singleton (Char.ofNat 39)

/-- `runSuite`: one submission attempt. Reads files, derives the per-attempt
context with the suite timeout (default-capped), submits via `TriggerRun`,
classifies submission deadline/cancellation directly, polls to a terminal
state, issues a best-effort `StopRun` on a fresh background context when the
deadline or cancellation fired during polling, and converts a non-Succeeded
terminal status into an error. Returns the runner, the error, and the Job
Client call trace; `none` models a poll script too short to terminate. -/
def runSuite (b : AttemptBehavior) (suite : Suite) :
    Option (Runner × Option GoError × List JobCall) :=
  match mapFiles b.fs suite.files with
  | .error e => some (Runner.zero, some e, [])
  | .ok _ =>
    if isDeadlineExceeded b.trigger.err && b.trigger.ctxErr.isSome then
      some ({ Runner.zero with status := StateCancelled },
        some (.suiteTimeout (if suite.timeout ≤ 0 then hours24 else suite.timeout)),
        [.triggerRun .attempt])
    else if isCanceled b.trigger.err && b.trigger.ctxErr.isSome then
      some ({ Runner.zero with status := StateCancelled },
        some .suiteCancelled, [.triggerRun .attempt])
    else if b.trigger.err.isSome then
      some (Runner.zero, b.trigger.err, [.triggerRun .attempt])
    else
      match PollRun b.trigger.runner.id b.trigger.runner.status b.pollEvents with
      | none => none
      | some (run, perr, ctxErr, ptrace) =>
        if isDeadlineExceeded perr && ctxErr.isSome then
          some ({ run with status := StateCancelled },
            some (.suiteTimeout (if suite.timeout ≤ 0 then hours24 else suite.timeout)),
            (JobCall.triggerRun .attempt :: ptrace) ++ [.stopRun .background b.trigger.runner.id])
        else if isCanceled perr && ctxErr.isSome then
          some ({ run with status := StateCancelled }, some .suiteCancelled,
            (JobCall.triggerRun .attempt :: ptrace) ++ [.stopRun .background b.trigger.runner.id])
        else if perr.isSome then
          some (run, perr, JobCall.triggerRun .attempt :: ptrace)
        else if run.status ≠ StateSucceeded then
          some (run,
            some (if run.terminationReason ≠ "" then
                GoError.msg ("suite " ++ sq ++ suite.name ++ sq ++ " failed: " ++
                  run.terminationReason)
              else
                GoError.msg ("suite " ++ sq ++ suite.name ++ sq ++ " failed")),
            JobCall.triggerRun .attempt :: ptrace)
        else
          some (run, none, JobCall.triggerRun .attempt :: ptrace)

/-- The terminal outcome of one suite (`execResult`); wall-clock fields
(start/end time, duration) are elided. -/
structure ExecResult where
  name : String
  runID : String
  status : String
  err : Option GoError
  attempts : Nat
deriving Repr, DecidableEq

/-- One iteration of the worker loop in `runSuites`: apply defaults, skip
with a Cancelled result when the shared context is already cancelled
(`r.ctx.Err() != nil`), otherwise run the single attempt and wrap its
outcome. `battempt n` is the environment attempt `n` would observe; the
engine performs exactly one attempt and consults `battempt 0`. -/
def processSuite (defaults : Defaults) (ctxErr : Option GoError)
    (battempt : Nat → AttemptBehavior) (suite0 : Suite) :
    Option (ExecResult × List JobCall) :=
  if ctxErr.isSome then
    some ({ name := (applyDefaults defaults suite0).name, runID := "",
            status := StateCancelled, err := some .suiteCancelled, attempts := 0 }, [])
  else
    (runSuite (battempt 0) (applyDefaults defaults suite0)).map fun r =>
      ({ name := (applyDefaults defaults suite0).name, runID := r.1.id,
         status := r.1.status, err := r.2.1, attempts := 1 }, r.2.2)

/-- `runSuites`: a worker draining the suite channel, processing each suite
to completion before dequeuing the next. `ctxErrAt i` is `r.ctx.Err()` as
observed at iteration `i`, `battempt i n` the environment of suite `i`'s
attempt `n`. -/
def runSuites (defaults : Defaults) (ctxErrAt : Nat → Option GoError)
    (battempt : Nat → Nat → AttemptBehavior) :
    Nat → List Suite → Option (List (ExecResult × List JobCall))
  | _, [] => some []
  | i, s :: rest => do
    let r ← processSuite defaults (ctxErrAt i) (battempt i) s
    let rs ← runSuites defaults ctxErrAt battempt (i + 1) rest
    pure (r :: rs)

/-- The worker pool returned by `createWorkerPool`: the capacities of the
two channels and the number of workers started. -/
structure WorkerPool where
  suiteChanCap : Nat
  resultChanCap : Nat
  workers : Nat
deriving Repr, DecidableEq

/-- `createWorkerPool(ccy, maxRetries)`: a suite channel of capacity
`maxRetries + 1`, a result channel of capacity `ccy`, and `ccy` workers. -/
def createWorkerPool (ccy maxRetries : Nat) : WorkerPool :=
  { suiteChanCap := maxRetries + 1, resultChanCap := ccy, workers := ccy }

/-- The artifact download configuration (`config.ArtifactDownload`): the
download mode (when to download), the glob patterns, and the root
directory. -/
structure ArtifactDownload where
  when : String
  matchPatterns : List String
  directory : String
deriving Repr, DecidableEq

/-- Modelled from the spec: the download modes of the configuration layer
(the `config` package is not under `src/`) — always, never, and the
pass/fail-dependent modes. -/
def WhenAlways : String := "always"

/-- Modelled from the spec: download only when the overall verdict is a
failure (the `config` package is not under `src/`). -/
def WhenFail : String := "fail"

/-- Modelled from the spec: download only when the overall verdict is a
pass (the `config` package is not under `src/`). -/
def WhenPass : String := "pass"

/-- Modelled from the spec: `config.ShouldDownloadArtifact` (the `config`
package is not under `src/`). Per the spec and the call-site comment, the
conditional is: a run id exists, the run was not cancelled, the run is not
asynchronous, and the configured download mode enables the download
(possibly depending on the pass/fail verdict). -/
def ShouldDownloadArtifact (jobID : String) (passed notCancelled async : Bool)
    (cfg : ArtifactDownload) : Bool :=
  jobID ≠ "" && notCancelled && !async &&
    (cfg.when == WhenAlways || (cfg.when == WhenFail && !passed) ||
      (cfg.when == WhenPass && passed))

/-- Modelled from the spec: `config.GetSuiteArtifactFolder` (the `config`
package is not under `src/`) — the suite-name-derived local directory under
the configured root into which a suite's artifacts are downloaded. -/
def suiteArtifactFolder (suiteName : String) (cfg : ArtifactDownload) : String :=
  cfg.directory ++ "/" ++ suiteName

/-- One artifact-storage call, as recorded in a collection trace. -/
inductive ArtCall where
  | list (id : String)
  | download (id : String) (name : String) (dir : String)
deriving Repr, DecidableEq

/-- The environment of artifact collection: whether creating the local
directory fails, the `ListArtifacts` outcome (Go returns both a slice and an
error), the per-file `DownloadArtifact` outcome (the engine ignores it), and
the external glob matcher (`glob.Glob pattern name`). -/
structure ArtifactBackend where
  mkdirErr : Option GoError
  listFiles : List String
  listErr : Option GoError
  downloadErr : String → Option GoError
  globMatch : String → String → Bool

/-- The inner pattern loop of `DownloadArtifacts`: the first matching
pattern triggers the download and breaks; a download error is logged and
ignored. -/
def downloadOne (ab : ArtifactBackend) (cfg : ArtifactDownload)
    (runnerID dir f : String) : List ArtCall :=
  if cfg.matchPatterns.any (fun pattern => ab.globMatch pattern f) then
    [.download runnerID f dir]
  else
    []

/-- `DownloadArtifacts`: create the suite-name-derived folder (failure is
logged and aborts collection for this suite), list the remote artifacts
(failure is logged; iteration proceeds over the returned slice), and
download every listed name matching at least one configured glob pattern,
at most once per listed name. Returns the artifact-storage call trace. -/
def DownloadArtifacts (ab : ArtifactBackend) (cfg : ArtifactDownload)
    (runnerID suiteName : String) : List ArtCall :=
  if ab.mkdirErr.isSome then []
  else
    let dir := suiteArtifactFolder suiteName cfg
    .list runnerID :: (ab.listFiles.map (downloadOne ab cfg runnerID dir)).flatten

/-- What a reporter receives for one suite (`report.TestResult`; wall-clock
fields elided). -/
structure TestResult where
  name : String
  status : String
  attempts : Nat
deriving Repr, DecidableEq

/-- The loop body of `collectResults` for one received result: update the
running verdict, decide and perform artifact collection, and feed every
reporter. The accumulator is (passed, artifact calls so far, reported so
far). -/
def collectStep (ab : ArtifactBackend) (cfg : ArtifactDownload)
    (acc : Bool × List ArtCall × List TestResult) (res : ExecResult) :
    Bool × List ArtCall × List TestResult :=
  let passed := if res.err.isSome then false else acc.1
  let calls :=
    if ShouldDownloadArtifact res.runID passed (res.status ≠ StateCancelled) false cfg then
      acc.2.1 ++ DownloadArtifacts ab cfg res.runID res.name
    else
      acc.2.1
  (passed, calls,
    acc.2.2 ++ [{ name := res.name, status := res.status, attempts := res.attempts }])

/-- `collectResults`: the single-consumer aggregation loop — receives every
ExecResult, ANDs the verdict, collects artifacts per policy, and feeds the
reporters. Returns (overall verdict, artifact call trace, reporter
stream). -/
def collectResults (ab : ArtifactBackend) (cfg : ArtifactDownload)
    (results : List ExecResult) : Bool × List ArtCall × List TestResult :=
  results.foldl (collectStep ab cfg) (true, [], [])

/-- The project as the engine consumes it: suites, defaults, artifact
download configuration. -/
structure Project where
  suites : List Suite
  defaults : Defaults
  download : ArtifactDownload

/-- `RunProject`: starts one worker with no retries
(`createWorkerPool(1, 0)`), submits every suite, collects all results, and
returns exit code 1 when the run did not pass and 0 otherwise. -/
def RunProject (ctxErrAt : Nat → Option GoError)
    (battempt : Nat → Nat → AttemptBehavior) (ab : ArtifactBackend)
    (p : Project) : Option Nat :=
  (runSuites p.defaults ctxErrAt battempt 0 p.suites).map fun rs =>
    if (collectResults ab p.download (rs.map Prod.fst)).1 then 0 else 1

/-- Is a trace entry a `TriggerRun` call? -/
def isTriggerRun : JobCall → Bool
  | .triggerRun _ => true
  | _ => false

/-- Is a trace entry a `StopRun` call? -/
def isStopRun : JobCall → Bool
  | .stopRun _ _ => true
  | _ => false

/-- Empty project defaults. -/
def dEmpty : Defaults :=
  { name := "", image := "", imagePullAuth := ⟨"", ""⟩, entryPoint := "",
    timeout := 0, files := [], artifacts := [], env := [] }

/-- An attempt environment in which every call succeeds trivially. -/
def trivialBehavior : AttemptBehavior :=
  { fs := fun _ => .ok "", trigger := ⟨Runner.zero, none, none⟩,
    pollEvents := [], stopErr := none }

/-- Suite `D` of the retry scenario. -/
def suiteD : Suite :=
  { name := "D", image := "img", imagePullAuth := ⟨"", ""⟩, entryPoint := "ep",
    timeout := 1, files := [], artifacts := [], env := none }

/-- Attempt environment in which the backend reports terminal `Failed`. -/
def failBehavior : AttemptBehavior :=
  { fs := fun _ => .ok "", trigger := ⟨⟨"r1", "Pending", ""⟩, none, none⟩,
    pollEvents := [.tick ⟨⟨"r1", StateFailed, ""⟩, none, none⟩], stopErr := none }

/-- Attempt environment in which the backend reports terminal `Succeeded`. -/
def succeedBehavior : AttemptBehavior :=
  { fs := fun _ => .ok "", trigger := ⟨⟨"r1", "Pending", ""⟩, none, none⟩,
    pollEvents := [.tick ⟨⟨"r1", StateSucceeded, ""⟩, none, none⟩], stopErr := none }

/-- Per-suite, per-attempt environments of the retry scenario: attempt 1
fails, any further attempt would succeed. -/
def bD : Nat → Nat → AttemptBehavior :=
  fun _ n => if n = 0 then failBehavior else succeedBehavior

/-- The shared context is never cancelled in the retry scenario. -/
def cD : Nat → Option GoError := fun _ => none

/-- The result the engine produces for suite `D`. -/
def resD : ExecResult :=
  { name := "D", runID := "r1", status := StateFailed,
    err := some (.msg ("suite " ++ sq ++ "D" ++ sq ++ " failed")), attempts := 1 }

/-- The Job Client trace the engine produces for suite `D`. -/
def trD : List JobCall := [.triggerRun .attempt, .getStatus .attempt "r1"]

/-- The result the engine produces for suite `D` when the shared context is
already cancelled at dequeue time. -/
def resDCancelled : ExecResult :=
  { name := "D", runID := "", status := StateCancelled,
    err := some .suiteCancelled, attempts := 0 }

/-- Suite of the poll-phase timeout scenario. -/
def suiteT : Suite :=
  { name := "T", image := "img", imagePullAuth := ⟨"", ""⟩, entryPoint := "ep",
    timeout := 5, files := [], artifacts := [], env := none }

/-- Attempt environment in which the per-attempt deadline expires during
polling. -/
def bT : AttemptBehavior :=
  { fs := fun _ => .ok "", trigger := ⟨⟨"r1", "Pending", ""⟩, none, none⟩,
    pollEvents := [.ctxDone .deadlineExceeded], stopErr := none }

/-- Suite of the submission-phase timeout scenario. -/
def suiteS : Suite :=
  { name := "S", image := "img", imagePullAuth := ⟨"", ""⟩, entryPoint := "ep",
    timeout := 7, files := [], artifacts := [], env := none }

/-- Attempt environment in which `TriggerRun` itself returns
deadline-exceeded with the per-attempt context expired. -/
def bS : AttemptBehavior :=
  { fs := fun _ => .ok "",
    trigger := ⟨Runner.zero, some .deadlineExceeded, some .deadlineExceeded⟩,
    pollEvents := [], stopErr := none }

/-- Suite of the env-merge scenario: sets key `K`. -/
def suiteC5 : Suite :=
  { name := "s", image := "img", imagePullAuth := ⟨"", ""⟩, entryPoint := "",
    timeout := 0, files := [], artifacts := [], env := some [("K", "fromSuite")] }

/-- Defaults of the env-merge scenario: also set key `K`. -/
def defaultsC5 : Defaults :=
  { name := "", image := "", imagePullAuth := ⟨"", ""⟩, entryPoint := "",
    timeout := 0, files := [], artifacts := [], env := [("K", "fromDefaults")] }

/-- Suite of the all-pass aggregation scenario. -/
def suiteA : Suite :=
  { name := "A", image := "img", imagePullAuth := ⟨"", ""⟩, entryPoint := "ep",
    timeout := 1, files := [], artifacts := [], env := none }

/-- Project of the all-pass aggregation scenario. -/
def pA : Project :=
  { suites := [suiteA],
    defaults := dEmpty,
    download := { when := "never", matchPatterns := [], directory := "art" } }

/-- Per-suite attempt environments of the aggregation scenario. -/
def bA : Nat → Nat → AttemptBehavior := fun _ _ => succeedBehavior

/-- Artifact environment of the aggregation scenario. -/
def abA : ArtifactBackend :=
  { mkdirErr := none, listFiles := [], listErr := none,
    downloadErr := fun _ => none, globMatch := fun _ _ => false }

/-- The result list the engine produces in the aggregation scenario. -/
def rsA : List (ExecResult × List JobCall) :=
  [({ name := "A", runID := "r1", status := StateSucceeded, err := none,
      attempts := 1 }, [.triggerRun .attempt, .getStatus .attempt "r1"])]

/-- Suite of the failed-terminal scenario. -/
def sC7 : Suite :=
  { name := "F", image := "img", imagePullAuth := ⟨"", ""⟩, entryPoint := "ep",
    timeout := 1, files := [], artifacts := [], env := none }

/-- Attempt environment in which the backend reports terminal `Failed` with
a termination reason. -/
def bC7 : AttemptBehavior :=
  { fs := fun _ => .ok "", trigger := ⟨⟨"r1", "Pending", ""⟩, none, none⟩,
    pollEvents := [.tick ⟨⟨"r1", StateFailed, "oom"⟩, none, none⟩], stopErr := none }

/-- Artifact environment of the collection scenario. -/
def abW : ArtifactBackend :=
  { mkdirErr := none, listFiles := ["a.log", "b.txt"], listErr := none,
    downloadErr := fun _ => none, globMatch := fun pattern f => pattern == f }

/-- A second artifact environment, differing in the download outcomes. -/
def abW' : ArtifactBackend :=
  { mkdirErr := none, listFiles := ["a.log", "b.txt"], listErr := none,
    downloadErr := fun _ => some (.msg "boom"), globMatch := fun pattern f => pattern == f }

/-- Download configuration of the collection scenario. -/
def cfgW : ArtifactDownload :=
  { when := "always", matchPatterns := ["a.log"], directory := "art" }

/-- First-some choice on optional values, used to state the env-merge
property. -/
def optOr (a b : Option String) : Option String :=
  match a with
  | some v => some v
  | none => b

/-! ### Helper lemmas -/

theorem envGet_envInsert_self (k v : String) (l : List (String × String)) :
    envGet k (envInsert k v l) = some v := by
  induction l with
  | nil => simp [envInsert, envGet]
  | cons hd tl ih =>
    obtain ⟨k', v'⟩ := hd
    by_cases h : k' = k
    · simp [envInsert, h, envGet]
    · simp [envInsert, h, envGet, ih]

theorem envGet_envInsert_ne (k k' v : String) (l : List (String × String))
    (h : k ≠ k') : envGet k (envInsert k' v l) = envGet k l := by
  induction l with
  | nil => simp [envInsert, envGet, Ne.symm h]
  | cons hd tl ih =>
    obtain ⟨k1, v1⟩ := hd
    by_cases h1 : k1 = k'
    · subst h1
      simp [envInsert, envGet, Ne.symm h]
    · by_cases h2 : k1 = k
      · simp [envInsert, envGet, h1, h2, h]
      · simp [envInsert, envGet, h1, h2, ih]

theorem envGet_eq_none (k : String) (l : List (String × String))
    (h : k ∉ l.map Prod.fst) : envGet k l = none := by
  induction l with
  | nil => simp [envGet]
  | cons hd tl ih =>
    obtain ⟨k1, v1⟩ := hd
    simp only [List.map_cons, List.mem_cons] at h
    push_neg at h
    simp [envGet, Ne.symm h.1, ih h.2]

theorem envGet_foldl_envInsert (k : String) :
    ∀ (d env0 : List (String × String)), (d.map Prod.fst).Nodup →
      envGet k (d.foldl (fun acc kv => envInsert kv.1 kv.2 acc) env0) =
        optOr (envGet k d) (envGet k env0) := by
  intro d
  induction d with
  | nil => intro env0 _; simp [envGet, optOr]
  | cons hd tl ih =>
    intro env0 hnd
    obtain ⟨k1, v1⟩ := hd
    simp only [List.map_cons, List.nodup_cons] at hnd
    by_cases hk : k1 = k
    · subst hk
      have h1 : envGet k1 tl = none := envGet_eq_none k1 tl hnd.1
      rw [List.foldl_cons, ih (envInsert k1 v1 env0) hnd.2, h1,
        envGet_envInsert_self]
      simp [envGet, optOr]
    · rw [List.foldl_cons, ih (envInsert k1 v1 env0) hnd.2,
        envGet_envInsert_ne k k1 v1 env0 (Ne.symm hk)]
      simp [envGet, hk, optOr]

theorem runSuites_length (d : Defaults) (c : Nat → Option GoError)
    (b : Nat → Nat → AttemptBehavior) :
    ∀ (ss : List Suite) (i : Nat) (rs : List (ExecResult × List JobCall)),
      runSuites d c b i ss = some rs → rs.length = ss.length := by
  intro ss
  induction ss with
  | nil =>
    intro i rs h
    simp only [runSuites, Option.some.injEq] at h
    simp [← h]
  | cons s tl ih =>
    intro i rs h
    unfold runSuites at h
    cases hp : processSuite d (c i) (b i) s with
    | none => simp [hp] at h
    | some r =>
      cases hr : runSuites d c b (i + 1) tl with
      | none => simp [hp, hr] at h
      | some rs' =>
        simp [hp, hr] at h
        subst h
        simp [ih (i + 1) rs' hr]

theorem runSuites_mem (d : Defaults) (c : Nat → Option GoError)
    (b : Nat → Nat → AttemptBehavior) :
    ∀ (ss : List Suite) (i : Nat) (rs : List (ExecResult × List JobCall)),
      runSuites d c b i ss = some rs →
      ∀ r ∈ rs, ∃ j s, processSuite d (c j) (b j) s = some r := by
  intro ss
  induction ss with
  | nil =>
    intro i rs h r hr
    simp only [runSuites, Option.some.injEq] at h
    subst h
    simp at hr
  | cons s tl ih =>
    intro i rs h r hr
    unfold runSuites at h
    cases hp : processSuite d (c i) (b i) s with
    | none => simp [hp] at h
    | some r1 =>
      cases hrs : runSuites d c b (i + 1) tl with
      | none => simp [hp, hrs] at h
      | some rs' =>
        simp [hp, hrs] at h
        subst h
        rcases List.mem_cons.1 hr with h | h
        · exact ⟨i, s, by rw [hp, h]⟩
        · exact ih (i + 1) rs' hrs r h

theorem pollRun_countP (p : JobCall → Bool)
    (hp : ∀ k cid, p (.getStatus k cid) = false) :
    ∀ (evts : List PollEvent) (id st : String)
      (r : Runner × Option GoError × Option GoError × List JobCall),
      PollRun id st evts = some r → r.2.2.2.countP p = 0 := by
  intro evts
  induction evts with
  | nil =>
    intro id st r h
    rw [show PollRun id st [] = none from rfl] at h
    exact Option.noConfusion h
  | cons e tl ih =>
    intro id st r h
    match e with
    | .ctxDone err =>
      rw [show PollRun id st (.ctxDone err :: tl) =
        some (Runner.zero, some err, some err, []) from rfl] at h
      simp only [Option.some.injEq] at h
      subst h
      simp
    | .tick t =>
      rw [show PollRun id st (.tick t :: tl) =
        (if t.err.isSome then
          some (t.runner, t.err, t.ctxErr, [.getStatus .attempt id])
        else if Done t.runner.status then
          some (t.runner, none, t.ctxErr, [.getStatus .attempt id])
        else
          (PollRun id t.runner.status tl).map
            (fun r => (r.1, r.2.1, r.2.2.1, .getStatus .attempt id :: r.2.2.2)))
        from rfl] at h
      split at h
      · simp only [Option.some.injEq] at h
        subst h
        simp [List.countP_cons, hp]
      · split at h
        · simp only [Option.some.injEq] at h
          subst h
          simp [List.countP_cons, hp]
        · cases hrec : PollRun id t.runner.status tl with
          | none => rw [hrec] at h; simp at h
          | some q =>
            rw [hrec] at h
            simp at h
            subst h
            simp [List.countP_cons, hp, ih id t.runner.status q hrec]

theorem runSuite_counts (b : AttemptBehavior) (s : Suite) (run : Runner)
    (e : Option GoError) (tr : List JobCall)
    (h : runSuite b s = some (run, e, tr)) :
    tr.countP isTriggerRun ≤ 1 ∧ tr.countP isStopRun ≤ 1 := by
  have htr : ∀ k cid, isTriggerRun (.getStatus k cid) = false := fun _ _ => rfl
  have hst : ∀ k cid, isStopRun (.getStatus k cid) = false := fun _ _ => rfl
  unfold runSuite at h
  split at h
  · simp only [Option.some.injEq, Prod.mk.injEq] at h
    obtain ⟨h1, h2, h3⟩ := h
    subst h3
    decide
  · split at h
    · simp only [Option.some.injEq, Prod.mk.injEq] at h
      obtain ⟨h1, h2, h3⟩ := h
      subst h3
      decide
    · split at h
      · simp only [Option.some.injEq, Prod.mk.injEq] at h
        obtain ⟨h1, h2, h3⟩ := h
        subst h3
        decide
      · split at h
        · simp only [Option.some.injEq, Prod.mk.injEq] at h
          obtain ⟨h1, h2, h3⟩ := h
          subst h3
          decide
        · cases hrec : PollRun b.trigger.runner.id b.trigger.runner.status
              b.pollEvents with
          | none => rw [hrec] at h; exact Option.noConfusion h
          | some q =>
            obtain ⟨run', perr, ctxErr, ptr⟩ := q
            have hq1 := pollRun_countP isTriggerRun htr b.pollEvents
              b.trigger.runner.id b.trigger.runner.status _ hrec
            have hq2 := pollRun_countP isStopRun hst b.pollEvents
              b.trigger.runner.id b.trigger.runner.status _ hrec
            simp only at hq1 hq2
            simp only [hrec] at h
            split at h
            · simp only [Option.some.injEq, Prod.mk.injEq] at h
              obtain ⟨h1, h2, h3⟩ := h
              subst h3
              constructor <;>
                simp [List.countP_append, List.countP_cons, hq1, hq2,
                  isTriggerRun, isStopRun]
            · split at h
              · simp only [Option.some.injEq, Prod.mk.injEq] at h
                obtain ⟨h1, h2, h3⟩ := h
                subst h3
                constructor <;>
                  simp [List.countP_append, List.countP_cons, hq1, hq2,
                    isTriggerRun, isStopRun]
              · split at h
                · simp only [Option.some.injEq, Prod.mk.injEq] at h
                  obtain ⟨h1, h2, h3⟩ := h
                  subst h3
                  constructor <;>
                    simp [List.countP_cons, hq1, hq2, isTriggerRun, isStopRun]
                · split at h
                  · simp only [Option.some.injEq, Prod.mk.injEq] at h
                    obtain ⟨h1, h2, h3⟩ := h
                    subst h3
                    constructor <;>
                      simp [List.countP_cons, hq1, hq2, isTriggerRun, isStopRun]
                  · simp only [Option.some.injEq, Prod.mk.injEq] at h
                    obtain ⟨h1, h2, h3⟩ := h
                    subst h3
                    constructor <;>
                      simp [List.countP_cons, hq1, hq2, isTriggerRun, isStopRun]

theorem processSuite_attempts (d : Defaults) (c : Option GoError)
    (b : Nat → AttemptBehavior) (s : Suite) (res : ExecResult)
    (tr : List JobCall) (h : processSuite d c b s = some (res, tr)) :
    res.attempts ≤ 1 ∧ tr.countP isTriggerRun ≤ 1 := by
  unfold processSuite at h
  split at h
  · simp only [Option.some.injEq, Prod.mk.injEq] at h
    obtain ⟨h1, h2⟩ := h
    subst h2
    rw [← h1]
    exact ⟨by simp, by decide⟩
  · cases hrs : runSuite (b 0) (applyDefaults d s) with
    | none => rw [hrs] at h; exact Option.noConfusion h
    | some r =>
      rw [hrs] at h
      simp only [Option.map_some', Option.some.injEq, Prod.mk.injEq] at h
      obtain ⟨h1, h2⟩ := h
      subst h2
      have := runSuite_counts (b 0) (applyDefaults d s) r.1 r.2.1 r.2.2 hrs
      exact ⟨by rw [← h1], this.1⟩

theorem collectResults_foldl (ab : ArtifactBackend) (cfg : ArtifactDownload) :
    ∀ (results : List ExecResult) (pass : Bool) (calls : List ArtCall)
      (rep : List TestResult),
      (results.foldl (collectStep ab cfg) (pass, calls, rep)).1 =
        (pass && results.all fun r => r.err.isNone) ∧
      (results.foldl (collectStep ab cfg) (pass, calls, rep)).2.2 =
        rep ++ results.map (fun r => ⟨r.name, r.status, r.attempts⟩) := by
  intro results
  induction results with
  | nil => intro pass calls rep; simp
  | cons r tl ih =>
    intro pass calls rep
    have hstep : collectStep ab cfg (pass, calls, rep) r =
        ((if r.err.isSome then false else pass),
         (if ShouldDownloadArtifact r.runID
              (if r.err.isSome then false else pass)
              (decide (r.status ≠ StateCancelled)) false cfg then
            calls ++ DownloadArtifacts ab cfg r.runID r.name
          else calls),
         rep ++ [⟨r.name, r.status, r.attempts⟩]) := rfl
    rw [List.foldl_cons, hstep]
    obtain ⟨ih1, ih2⟩ := ih (if r.err.isSome then false else pass) _
      (rep ++ [⟨r.name, r.status, r.attempts⟩])
    refine ⟨?_, ?_⟩
    · rw [ih1]
      cases herr : r.err <;> simp [herr, List.all_cons]
    · rw [ih2]
      simp [List.append_assoc]

theorem flatten_map_ite {α β : Type} (q : α → Bool) (g : α → β) :
    ∀ l : List α, (l.map (fun f => if q f then [g f] else [])).flatten =
      (l.filter q).map g := by
  intro l
  induction l with
  | nil => simp
  | cons a tl ih => by_cases h : q a <;> simp [h, ih, List.filter_cons]

theorem downloadArtifacts_eq (ab : ArtifactBackend) (cfg : ArtifactDownload)
    (runnerID suiteName : String) (h : ab.mkdirErr = none) :
    DownloadArtifacts ab cfg runnerID suiteName =
      .list runnerID :: (ab.listFiles.filter
          (fun f => cfg.matchPatterns.any fun pattern => ab.globMatch pattern f)).map
        (fun f => .download runnerID f (suiteArtifactFolder suiteName cfg)) := by
  simp only [DownloadArtifacts, h, Option.isSome_none, Bool.false_eq_true,
    if_false]
  rw [show List.map (downloadOne ab cfg runnerID (suiteArtifactFolder suiteName cfg))
        ab.listFiles =
      List.map (fun f =>
        if (cfg.matchPatterns.any fun pattern => ab.globMatch pattern f) then
          [ArtCall.download runnerID f (suiteArtifactFolder suiteName cfg)]
        else []) ab.listFiles from rfl,
    flatten_map_ite]

theorem isCanceled_eq_true (perr : Option GoError)
    (h : isCanceled perr = true) : perr = some .canceled := by
  cases perr with
  | none => simp [isCanceled] at h
  | some g => cases g <;> simp_all [isCanceled]

theorem isDeadlineExceeded_eq_true (perr : Option GoError)
    (h : isDeadlineExceeded perr = true) : perr = some .deadlineExceeded := by
  cases perr with
  | none => simp [isDeadlineExceeded] at h
  | some g => cases g <;> simp_all [isDeadlineExceeded]

theorem runSuite_trigger_deadline (b : AttemptBehavior) (suite : Suite)
    (fd : List FileData) (hfiles : mapFiles b.fs suite.files = .ok fd)
    (hdl : isDeadlineExceeded b.trigger.err = true)
    (hc : b.trigger.ctxErr.isSome = true) :
    runSuite b suite = some ({ Runner.zero with status := StateCancelled },
      some (.suiteTimeout (if suite.timeout ≤ 0 then hours24 else suite.timeout)),
      [.triggerRun .attempt]) := by
  unfold runSuite
  simp [hfiles, hdl, hc]

theorem runSuite_poll_deadline (b : AttemptBehavior) (suite : Suite)
    (fd : List FileData) (run : Runner) (perr ctxErr : Option GoError)
    (ptr : List JobCall)
    (hfiles : mapFiles b.fs suite.files = .ok fd)
    (htrig : b.trigger.err = none)
    (hpoll : PollRun b.trigger.runner.id b.trigger.runner.status b.pollEvents =
      some (run, perr, ctxErr, ptr))
    (hdl : isDeadlineExceeded perr = true) (hc : ctxErr.isSome = true) :
    runSuite b suite = some ({ run with status := StateCancelled },
      some (.suiteTimeout (if suite.timeout ≤ 0 then hours24 else suite.timeout)),
      (JobCall.triggerRun .attempt :: ptr) ++
        [.stopRun .background b.trigger.runner.id]) := by
  have hperr := isDeadlineExceeded_eq_true perr hdl
  subst hperr
  unfold runSuite
  simp [hfiles, htrig, hpoll, hc, isDeadlineExceeded, isCanceled]

theorem runSuite_poll_canceled (b : AttemptBehavior) (suite : Suite)
    (fd : List FileData) (run : Runner) (perr ctxErr : Option GoError)
    (ptr : List JobCall)
    (hfiles : mapFiles b.fs suite.files = .ok fd)
    (htrig : b.trigger.err = none)
    (hpoll : PollRun b.trigger.runner.id b.trigger.runner.status b.pollEvents =
      some (run, perr, ctxErr, ptr))
    (hcl : isCanceled perr = true) (hc : ctxErr.isSome = true) :
    runSuite b suite = some ({ run with status := StateCancelled },
      some .suiteCancelled,
      (JobCall.triggerRun .attempt :: ptr) ++
        [.stopRun .background b.trigger.runner.id]) := by
  have hperr := isCanceled_eq_true perr hcl
  subst hperr
  unfold runSuite
  simp [hfiles, htrig, hpoll, hc, isDeadlineExceeded, isCanceled]

theorem runSuite_poll_failed (b : AttemptBehavior) (suite : Suite)
    (fd : List FileData) (run : Runner) (ctxErr : Option GoError)
    (ptr : List JobCall)
    (hfiles : mapFiles b.fs suite.files = .ok fd)
    (htrig : b.trigger.err = none)
    (hpoll : PollRun b.trigger.runner.id b.trigger.runner.status b.pollEvents =
      some (run, none, ctxErr, ptr))
    (hst : run.status ≠ StateSucceeded) :
    runSuite b suite = some (run,
      some (if run.terminationReason ≠ "" then
          GoError.msg ("suite " ++ sq ++ suite.name ++ sq ++ " failed: " ++
            run.terminationReason)
        else
          GoError.msg ("suite " ++ sq ++ suite.name ++ sq ++ " failed")),
      JobCall.triggerRun .attempt :: ptr) := by
  unfold runSuite
  simp [hfiles, htrig, hpoll, hst, isDeadlineExceeded, isCanceled]

/-! ### Claim theorems -/

/-- C1 counterexample: suite `D` with `maxRetries = 1` whose first attempt
finalizes with a backend `Failed` terminal status, and whose second attempt
would succeed, is NOT resubmitted: `maxRetries` only sizes the suite
channel, and the engine emits a single ExecResult with status Failed, the
failure error and `attempts = 1` after exactly one submission — not the
claimed `status = Succeeded`, `attempts = 2`. -/
theorem C1_retry_counterexample :
    (createWorkerPool 1 1).suiteChanCap = 2 ∧
    runSuites dEmpty cD bD 0 [suiteD] = some [(resD, trD)] ∧
    resD.status = StateFailed ∧
    resD.err = some (.msg ("suite " ++ sq ++ "D" ++ sq ++ " failed")) ∧
    resD.attempts = 1 ∧
    trD.countP isTriggerRun = 1 ∧
    ¬(resD.status = StateSucceeded ∧ resD.attempts = 2) :=
  ⟨rfl, by decide, rfl, rfl, rfl, by decide, by decide⟩

/-- C1 (amended): the engine never retries a TimedOut or Failed attempt:
each dequeued suite yields exactly one ExecResult, is submitted at most
once (at most one `TriggerRun` call in its trace), and its attempt counter
never exceeds 1. -/
theorem C1_no_retry (d : Defaults) (c : Nat → Option GoError)
    (b : Nat → Nat → AttemptBehavior) (ss : List Suite)
    (rs : List (ExecResult × List JobCall))
    (h : runSuites d c b 0 ss = some rs) :
    rs.length = ss.length ∧
    ∀ r ∈ rs, r.1.attempts ≤ 1 ∧ r.2.countP isTriggerRun ≤ 1 := by
  refine ⟨runSuites_length d c b ss 0 rs h, ?_⟩
  intro r hr
  obtain ⟨j, s, hj⟩ := runSuites_mem d c b ss 0 rs h r hr
  exact processSuite_attempts d (c j) (b j) s r.1 r.2 hj

/-- C1 witness: the amended theorem applied to the scenario of the
counterexample. -/
theorem C1_no_retry_witness :
    resD.attempts ≤ 1 ∧ trD.countP isTriggerRun ≤ 1 :=
  (C1_no_retry dEmpty cD bD [suiteD] [(resD, trD)] (by decide)).2
    (resD, trD) (List.mem_singleton.2 rfl)

/-- C2: a suite dequeued after the shared context has been cancelled makes
no Job Client call (empty trace) and yields an ExecResult with status
Cancelled and the cancellation error. -/
theorem C2_cancelled_skip (d : Defaults) (c : Option GoError)
    (b : Nat → AttemptBehavior) (s : Suite) (h : c.isSome = true) :
    processSuite d c b s =
      some ({ name := (applyDefaults d s).name, runID := "",
              status := StateCancelled, err := some .suiteCancelled,
              attempts := 0 }, []) := by
  unfold processSuite
  simp [h]

/-- C2 witness: the theorem applied to a concrete cancelled context. -/
theorem C2_cancelled_skip_witness :
    processSuite dEmpty (some GoError.canceled) (fun _ => trivialBehavior)
        suiteD =
      some ({ name := "D", runID := "", status := StateCancelled,
              err := some .suiteCancelled, attempts := 0 }, []) :=
  C2_cancelled_skip dEmpty (some .canceled) (fun _ => trivialBehavior)
    suiteD rfl

/-- C3 counterexample: when the per-attempt deadline expires during polling
the attempt is finalized with status Cancelled (the timeout error being
`SuiteTimeoutError`), not with a TimedOut status as claimed — no TimedOut
status is ever assigned. -/
theorem C3_status_counterexample :
    runSuite bT suiteT =
      some (⟨"", StateCancelled, ""⟩, some (.suiteTimeout 5),
        [.triggerRun .attempt, .stopRun .background "r1"]) ∧
    StateCancelled ≠ StateTimedOut :=
  ⟨by decide, by decide⟩

/-- C3 (amended): if the deadline expires or the root is cancelled while
polling, the engine issues a best-effort stop on a fresh background context
(never the expired per-attempt context), the stop call's failure is not
escalated (the outcome is independent of the stop error), and the attempt
finalizes with status Cancelled in both cases — carrying `SuiteTimeoutError`
on deadline expiry and `ErrSuiteCancelled` on cancellation. -/
theorem C3_stop_on_expiry (b : AttemptBehavior) (suite : Suite)
    (fd : List FileData) (run : Runner) (perr ctxErr : Option GoError)
    (ptr : List JobCall)
    (hfiles : mapFiles b.fs suite.files = .ok fd)
    (htrig : b.trigger.err = none)
    (hpoll : PollRun b.trigger.runner.id b.trigger.runner.status b.pollEvents =
      some (run, perr, ctxErr, ptr))
    (hc : ctxErr.isSome = true) :
    (isDeadlineExceeded perr = true →
      runSuite b suite = some ({ run with status := StateCancelled },
        some (.suiteTimeout (if suite.timeout ≤ 0 then hours24 else suite.timeout)),
        (JobCall.triggerRun .attempt :: ptr) ++
          [.stopRun .background b.trigger.runner.id])) ∧
    (isCanceled perr = true →
      runSuite b suite = some ({ run with status := StateCancelled },
        some .suiteCancelled,
        (JobCall.triggerRun .attempt :: ptr) ++
          [.stopRun .background b.trigger.runner.id])) ∧
    (∀ e, runSuite { b with stopErr := e } suite = runSuite b suite) :=
  ⟨fun hdl => runSuite_poll_deadline b suite fd run perr ctxErr ptr hfiles
      htrig hpoll hdl hc,
   fun hcl => runSuite_poll_canceled b suite fd run perr ctxErr ptr hfiles
      htrig hpoll hcl hc,
   fun _ => rfl⟩

/-- C3 witness: the amended theorem applied to the deadline-expiry
scenario. -/
theorem C3_stop_on_expiry_witness :
    runSuite bT suiteT =
      some ({ Runner.zero with status := StateCancelled },
        some (GoError.suiteTimeout
          (if suiteT.timeout ≤ 0 then hours24 else suiteT.timeout)),
        (JobCall.triggerRun .attempt :: ([] : List JobCall)) ++
          [JobCall.stopRun .background bT.trigger.runner.id]) :=
  (C3_stop_on_expiry bT suiteT [] Runner.zero (some .deadlineExceeded)
      (some .deadlineExceeded) [] rfl rfl (by decide) rfl).1 rfl

/-- C4 counterexample: when the per-attempt timeout fires during submission
itself (before any job id exists), the engine makes ZERO stop calls, not
the claimed exactly one: the trace of the attempt holds only the
`TriggerRun` call. -/
theorem C4_stop_count_counterexample :
    runSuite bS suiteS =
      some (⟨"", StateCancelled, ""⟩, some (.suiteTimeout 7),
        [.triggerRun .attempt]) ∧
    ([JobCall.triggerRun .attempt] : List JobCall).countP isStopRun = 0 :=
  ⟨by decide, by decide⟩

/-- C4 (amended): a per-attempt timeout that fires during polling (after a
successful submission) triggers exactly one stop call before the attempt is
finalized; a timeout that fires during submission itself triggers no stop
call and the attempt is finalized directly. -/
theorem C4_stop_call_count (b : AttemptBehavior) (suite : Suite)
    (fd : List FileData) (run : Runner) (perr ctxErr : Option GoError)
    (ptr : List JobCall)
    (hfiles : mapFiles b.fs suite.files = .ok fd) :
    (b.trigger.err = none →
      PollRun b.trigger.runner.id b.trigger.runner.status b.pollEvents =
        some (run, perr, ctxErr, ptr) →
      isDeadlineExceeded perr = true → ctxErr.isSome = true →
      runSuite b suite = some ({ run with status := StateCancelled },
        some (GoError.suiteTimeout
          (if suite.timeout ≤ 0 then hours24 else suite.timeout)),
        (JobCall.triggerRun .attempt :: ptr) ++
          [JobCall.stopRun .background b.trigger.runner.id]) ∧
      ((JobCall.triggerRun .attempt :: ptr) ++
          [JobCall.stopRun .background b.trigger.runner.id]).countP
        isStopRun = 1) ∧
    (isDeadlineExceeded b.trigger.err = true →
      b.trigger.ctxErr.isSome = true →
      runSuite b suite = some ({ Runner.zero with status := StateCancelled },
        some (GoError.suiteTimeout
          (if suite.timeout ≤ 0 then hours24 else suite.timeout)),
        [JobCall.triggerRun .attempt]) ∧
      ([JobCall.triggerRun .attempt] : List JobCall).countP isStopRun = 0) := by
  constructor
  · intro htrig hpoll hdl hc
    have hgs : ∀ k cid, isStopRun (.getStatus k cid) = false := fun _ _ => rfl
    have hsr : ∀ k i, isStopRun (.stopRun k i) = true := fun _ _ => rfl
    have htri : isStopRun (.triggerRun .attempt) = false := rfl
    have hptr := pollRun_countP isStopRun hgs b.pollEvents
      b.trigger.runner.id b.trigger.runner.status _ hpoll
    simp only at hptr
    refine ⟨runSuite_poll_deadline b suite fd run perr ctxErr ptr hfiles
      htrig hpoll hdl hc, ?_⟩
    simp [List.countP_append, List.countP_cons, hptr, hsr, htri]
  · intro hdl hc
    exact ⟨runSuite_trigger_deadline b suite fd hfiles hdl hc, by decide⟩

/-- C4 witness: the amended theorem applied to a poll-phase timeout and to
the submission-phase timeout of the counterexample. -/
theorem C4_stop_call_count_witness :
    (runSuite bT suiteT =
      some ({ Runner.zero with status := StateCancelled },
        some (GoError.suiteTimeout
          (if suiteT.timeout ≤ 0 then hours24 else suiteT.timeout)),
        (JobCall.triggerRun .attempt :: ([] : List JobCall)) ++
          [JobCall.stopRun .background bT.trigger.runner.id]) ∧
      ((JobCall.triggerRun .attempt :: ([] : List JobCall)) ++
          [JobCall.stopRun .background bT.trigger.runner.id]).countP
        isStopRun = 1) ∧
    (runSuite bS suiteS =
      some ({ Runner.zero with status := StateCancelled },
        some (GoError.suiteTimeout
          (if suiteS.timeout ≤ 0 then hours24 else suiteS.timeout)),
        [JobCall.triggerRun .attempt]) ∧
      ([JobCall.triggerRun .attempt] : List JobCall).countP isStopRun = 0) :=
  ⟨(C4_stop_call_count bT suiteT [] Runner.zero (some .deadlineExceeded)
      (some .deadlineExceeded) [] rfl).1 rfl (by decide) rfl rfl,
   (C4_stop_call_count bS suiteS [] Runner.zero none none [] rfl).2
      rfl rfl⟩

/-- C5 counterexample: when both the suite and the defaults set env key `K`,
the merged suite carries the DEFAULT value, not the suite-level value as
claimed. -/
theorem C5_env_counterexample :
    envGet "K" ((applyDefaults defaultsC5 suiteC5).env.getD []) =
      some "fromDefaults" ∧
    envGet "K" ((applyDefaults defaultsC5 suiteC5).env.getD []) ≠
      some "fromSuite" :=
  ⟨by decide, by decide⟩

/-- C5 (amended): default merging fills image, entry point, timeout and
image pull auth only when unset (suite-level values win there), appends the
default files and artifacts unconditionally, and merges default env entries
into the suite env with the DEFAULT value winning on key conflict;
afterwards exactly one ExecResult is produced per dequeued suite. -/
theorem C5_default_merge (d : Defaults) (s : Suite)
    (hnodup : (d.env.map Prod.fst).Nodup) :
    ((applyDefaults d s).image = if s.image = "" then d.image else s.image) ∧
    ((applyDefaults d s).entryPoint =
      if s.entryPoint = "" then d.entryPoint else s.entryPoint) ∧
    ((applyDefaults d s).timeout =
      if s.timeout = 0 then d.timeout else s.timeout) ∧
    ((applyDefaults d s).imagePullAuth =
      if s.imagePullAuth = ⟨"", ""⟩ then d.imagePullAuth else s.imagePullAuth) ∧
    ((applyDefaults d s).files = s.files ++ d.files) ∧
    ((applyDefaults d s).artifacts = s.artifacts ++ d.artifacts) ∧
    (∀ k, envGet k ((applyDefaults d s).env.getD []) =
      optOr (envGet k d.env) (envGet k (s.env.getD []))) ∧
    (∀ (c : Nat → Option GoError) (battempt : Nat → Nat → AttemptBehavior)
      (i : Nat) (ss : List Suite) (rs : List (ExecResult × List JobCall)),
      runSuites d c battempt i ss = some rs → rs.length = ss.length) := by
  refine ⟨?_, ?_, ?_, ?_, ?_, ?_, ?_,
    fun c battempt i ss rs h => runSuites_length d c battempt ss i rs h⟩
  · by_cases hn : d.name = "" <;> simp [applyDefaults, hn, orDefault, GoZero.zero]
  · by_cases hn : d.name = "" <;> simp [applyDefaults, hn, orDefault, GoZero.zero]
  · by_cases hn : d.name = "" <;> simp [applyDefaults, hn, orDefault, GoZero.zero]
  · by_cases hn : d.name = "" <;> simp [applyDefaults, hn, orDefault, GoZero.zero]
  · by_cases hn : d.name = "" <;> simp [applyDefaults, hn, orDefault, GoZero.zero]
  · by_cases hn : d.name = "" <;> simp [applyDefaults, hn, orDefault, GoZero.zero]
  · intro k
    have henv : (applyDefaults d s).env =
        some (d.env.foldl (fun acc kv => envInsert kv.1 kv.2 acc)
          (s.env.getD [])) := by
      by_cases hn : d.name = "" <;> simp [applyDefaults, hn]
    rw [henv]
    simpa using envGet_foldl_envInsert k d.env (s.env.getD []) hnodup

/-- C5 witness: the amended theorem applied to the env-conflict scenario. -/
theorem C5_default_merge_witness :
    envGet "K" ((applyDefaults defaultsC5 suiteC5).env.getD []) =
      optOr (envGet "K" defaultsC5.env) (envGet "K" (suiteC5.env.getD [])) :=
  (C5_default_merge defaultsC5 suiteC5 (by decide)).2.2.2.2.2.2.1 "K"

/-- C6: the aggregator consumes one ExecResult per suite (the reporter
stream has exactly one entry per suite), computes the overall verdict as
the AND of individual successes (a result with a non-nil error forces a
failing verdict), and the run's exit status is 0 iff every suite's final
ExecResult carries no error. -/
theorem C6_overall_verdict (ctxErrAt : Nat → Option GoError)
    (battempt : Nat → Nat → AttemptBehavior) (ab : ArtifactBackend)
    (p : Project) (rs : List (ExecResult × List JobCall))
    (h : runSuites p.defaults ctxErrAt battempt 0 p.suites = some rs) :
    ((collectResults ab p.download (rs.map Prod.fst)).1 =
      ((rs.map Prod.fst).all fun r => r.err.isNone)) ∧
    ((collectResults ab p.download (rs.map Prod.fst)).2.2.length =
      p.suites.length) ∧
    (RunProject ctxErrAt battempt ab p =
      some (if (rs.map Prod.fst).all (fun r => r.err.isNone) then 0 else 1)) ∧
    (RunProject ctxErrAt battempt ab p = some 0 ↔
      ∀ r ∈ rs.map Prod.fst, r.err = none) := by
  have hfold := collectResults_foldl ab p.download (rs.map Prod.fst) true [] []
  have hlen := runSuites_length p.defaults ctxErrAt battempt p.suites 0 rs h
  have h1 : (collectResults ab p.download (rs.map Prod.fst)).1 =
      ((rs.map Prod.fst).all fun r => r.err.isNone) := by
    have := hfold.1
    simpa [collectResults] using this
  have h2 : (collectResults ab p.download (rs.map Prod.fst)).2.2.length =
      p.suites.length := by
    have := hfold.2
    simp only [collectResults]
    rw [this]
    simp [hlen]
  have h3 : RunProject ctxErrAt battempt ab p =
      some (if (rs.map Prod.fst).all (fun r => r.err.isNone) then 0 else 1) := by
    unfold RunProject
    rw [h]
    simp only [Option.map_some']
    rw [h1]
  refine ⟨h1, h2, h3, ?_⟩
  rw [h3]
  cases hall : (rs.map Prod.fst).all fun r => r.err.isNone with
  | false =>
    simp only [hall, if_false, Bool.false_eq_true]
    constructor
    · intro h0
      exact absurd h0 (by simp)
    · intro hforall
      have : ((rs.map Prod.fst).all fun r => r.err.isNone) = true := by
        simp only [List.all_eq_true, Option.isNone_iff_eq_none]
        exact hforall
      rw [hall] at this
      exact Bool.noConfusion this
  | true =>
    have hall' := hall
    simp only [List.all_eq_true, Option.isNone_iff_eq_none] at hall'
    constructor
    · intro _
      exact hall'
    · intro _
      simp [hall]

/-- C6 witness: the theorem applied to a one-suite all-pass scenario. -/
theorem C6_overall_verdict_witness :
    RunProject cD bA abA pA =
      some (if (rsA.map Prod.fst).all (fun r => r.err.isNone) then 0 else 1) :=
  (C6_overall_verdict cD bA abA pA rsA (by decide)).2.2.1

/-- C7: a terminal backend status other than Succeeded yields a non-nil
error whose message includes the backend termination reason when one is
supplied, and is the generic "suite '<name>' failed" message otherwise. -/
theorem C7_failed_terminal (b : AttemptBehavior) (suite : Suite)
    (fd : List FileData) (run : Runner) (ctxErr : Option GoError)
    (ptr : List JobCall)
    (hfiles : mapFiles b.fs suite.files = .ok fd)
    (htrig : b.trigger.err = none)
    (hpoll : PollRun b.trigger.runner.id b.trigger.runner.status b.pollEvents =
      some (run, none, ctxErr, ptr))
    (hst : run.status ≠ StateSucceeded) :
    runSuite b suite = some (run,
      some (if run.terminationReason ≠ "" then
          GoError.msg ("suite " ++ sq ++ suite.name ++ sq ++ " failed: " ++
            run.terminationReason)
        else
          GoError.msg ("suite " ++ sq ++ suite.name ++ sq ++ " failed")),
      JobCall.triggerRun .attempt :: ptr) :=
  runSuite_poll_failed b suite fd run ctxErr ptr hfiles htrig hpoll hst

/-- C7 witness: the theorem applied to a backend reporting terminal Failed
with termination reason "oom". -/
theorem C7_failed_terminal_witness :
    runSuite bC7 sC7 = some (⟨"r1", StateFailed, "oom"⟩,
      some (GoError.msg ("suite " ++ sq ++ "F" ++ sq ++ " failed: oom")),
      [JobCall.triggerRun .attempt, JobCall.getStatus .attempt "r1"]) :=
  C7_failed_terminal bC7 sC7 [] ⟨"r1", StateFailed, "oom"⟩ none
    [.getStatus .attempt "r1"] rfl rfl (by decide) (by decide)

/-- C8: artifact collection never changes the verdict (it is independent of
the artifact environment), directory-creation failure aborts collection for
the suite, a Cancelled status or a disabled download mode means no
collection calls at all, and — when the directory exists — a listed file is
downloaded into the suite-name-derived folder iff it matches at least one
configured glob pattern, at most once per file; download failures do not
alter the collection behaviour. -/
theorem C8_artifact_collection (ab ab' : ArtifactBackend)
    (cfg : ArtifactDownload) (runnerID suiteName : String) (res : ExecResult)
    (acc : Bool × List ArtCall × List TestResult) (results : List ExecResult)
    (e : String → Option GoError) (hnd : ab.listFiles.Nodup) :
    ((collectResults ab cfg results).1 = (collectResults ab' cfg results).1) ∧
    (ab.mkdirErr.isSome = true →
      DownloadArtifacts ab cfg runnerID suiteName = []) ∧
    ((res.status = StateCancelled ∨
        (cfg.when ≠ WhenAlways ∧ cfg.when ≠ WhenFail ∧ cfg.when ≠ WhenPass)) →
      (collectStep ab cfg acc res).2.1 = acc.2.1) ∧
    (ab.mkdirErr = none → ∀ f,
      (ArtCall.download runnerID f (suiteArtifactFolder suiteName cfg) ∈
          DownloadArtifacts ab cfg runnerID suiteName ↔
        (f ∈ ab.listFiles ∧
          (cfg.matchPatterns.any fun pattern => ab.globMatch pattern f) = true))) ∧
    (ab.mkdirErr = none → ∀ f dir,
      (DownloadArtifacts ab cfg runnerID suiteName).count
        (ArtCall.download runnerID f dir) ≤ 1) ∧
    (DownloadArtifacts { ab with downloadErr := e } cfg runnerID suiteName =
      DownloadArtifacts ab cfg runnerID suiteName) := by
  refine ⟨?_, ?_, ?_, ?_, ?_, rfl⟩
  · show (results.foldl (collectStep ab cfg) (true, [], [])).1 =
      (results.foldl (collectStep ab' cfg) (true, [], [])).1
    rw [(collectResults_foldl ab cfg results true [] []).1,
      (collectResults_foldl ab' cfg results true [] []).1]
  · intro hmk
    unfold DownloadArtifacts
    simp [hmk]
  · intro hcase
    rcases hcase with hcanc | ⟨h1, h2, h3⟩
    · simp [collectStep, ShouldDownloadArtifact, hcanc]
    · simp [collectStep, ShouldDownloadArtifact, h1, h2, h3]
  · intro hmk f
    rw [downloadArtifacts_eq ab cfg runnerID suiteName hmk]
    simp [List.mem_filter]
  · intro hmk f dir
    rw [downloadArtifacts_eq ab cfg runnerID suiteName hmk]
    have hinj : Function.Injective
        (fun g => ArtCall.download runnerID g
          (suiteArtifactFolder suiteName cfg)) := by
      intro a b hab
      simpa using hab
    have hall : (ArtCall.list runnerID ::
        (ab.listFiles.filter
          (fun g => cfg.matchPatterns.any fun pattern => ab.globMatch pattern g)).map
          (fun g => ArtCall.download runnerID g
            (suiteArtifactFolder suiteName cfg))).Nodup := by
      refine List.nodup_cons.2 ⟨?_, (hnd.filter _).map hinj⟩
      simp [List.mem_map]
    exact List.nodup_iff_count_le_one.1 hall _

/-- C8 witness: the theorem applied to a concrete listing of two files of
which one matches the single configured pattern. -/
theorem C8_artifact_collection_witness :
    ArtCall.download "r9" "a.log" (suiteArtifactFolder "sweet" cfgW) ∈
        DownloadArtifacts abW cfgW "r9" "sweet" ↔
      ("a.log" ∈ abW.listFiles ∧
        (cfgW.matchPatterns.any fun pattern => abW.globMatch pattern "a.log") = true) :=
  (C8_artifact_collection abW abW' cfgW "r9" "sweet"
      { name := "", runID := "", status := "", err := none, attempts := 0 }
      (true, [], []) [] (fun _ => none) (by decide)).2.2.2.1 rfl "a.log"

/-- C9: createWorkerPool returns a suite channel of capacity maxRetries+1
and a result channel of capacity concurrency, starts exactly concurrency
workers, and a worker completes one suite's lifecycle before dequeuing the
next (the worker loop is strictly sequential). -/
theorem C9_worker_pool (ccy maxRetries : Nat) (d : Defaults)
    (c : Nat → Option GoError) (b : Nat → Nat → AttemptBehavior) (i : Nat)
    (s : Suite) (rest : List Suite) :
    ((createWorkerPool ccy maxRetries).suiteChanCap = maxRetries + 1) ∧
    ((createWorkerPool ccy maxRetries).resultChanCap = ccy) ∧
    ((createWorkerPool ccy maxRetries).workers = ccy) ∧
    (runSuites d c b i (s :: rest) =
      (processSuite d (c i) (b i) s).bind fun r =>
        (runSuites d c b (i + 1) rest).map fun rs => r :: rs) := by
  refine ⟨rfl, rfl, rfl, ?_⟩
  simp only [runSuites]
  cases processSuite d (c i) (b i) s with
  | none => rfl
  | some r =>
    cases runSuites d c b (i + 1) rest with
    | none => rfl
    | some rs => rfl

/-- C10: a suite skipped because the shared context was cancelled at
dequeue time yields an ExecResult with attempts = 0 and an empty runID
(and an empty call trace), whereas every ExecResult emitted after an
actual submission attempt carries attempts = 1. -/
theorem C10_attempt_accounting (d : Defaults) (c : Option GoError)
    (b : Nat → AttemptBehavior) (s : Suite) :
    (c.isSome = true → ∀ res tr, processSuite d c b s = some (res, tr) →
      res.attempts = 0 ∧ res.runID = "" ∧ tr = []) ∧
    (c.isSome = false → ∀ res tr, processSuite d c b s = some (res, tr) →
      res.attempts = 1) := by
  constructor
  · intro hc res tr h
    unfold processSuite at h
    simp only [hc, if_true] at h
    simp only [Option.some.injEq, Prod.mk.injEq] at h
    obtain ⟨h1, h2⟩ := h
    subst h2
    rw [← h1]
    exact ⟨rfl, rfl, rfl⟩
  · intro hc res tr h
    unfold processSuite at h
    simp only [hc, Bool.false_eq_true, if_false] at h
    cases hrs : runSuite (b 0) (applyDefaults d s) with
    | none => rw [hrs] at h; exact Option.noConfusion h
    | some r =>
      rw [hrs] at h
      simp at h
      rw [← h.1]

/-- C10 witness: the theorem applied to both a cancelled dequeue and an
executed attempt. -/
theorem C10_attempt_accounting_witness :
    (resDCancelled.attempts = 0 ∧ resDCancelled.runID = "" ∧
      ([] : List JobCall) = []) ∧
    resD.attempts = 1 :=
  ⟨(C10_attempt_accounting dEmpty (some .canceled)
      (fun _ => failBehavior) suiteD).1 rfl resDCancelled [] (by decide),
   (C10_attempt_accounting dEmpty none (fun _ => failBehavior) suiteD).2
      rfl resD trD (by decide)⟩

end Imagerunner
